import Mathlib

/-!
Shallow embedding of the case-set cache and identifier machinery of the
`qag_mcp` server (`src/qag_mcp/_utils.py`, `src/qag_mcp/server.py`).

Python strings are modelled as `List Char`; Python exceptions as an
explicit error type threaded through `Except`.  The process-local
`cachetools.TTLCache` is modelled as an association list of entries with an
absolute expiration deadline; reads take the current time `now` explicitly
(the library's monotonic timer).  Capacity eviction (maxsize=1000) is not
modelled: no claim exercises more than a handful of entries, and setting an
existing key never evicts.  Python's `list(set(x))` is modelled by
`List.dedup`, which has the same membership and cardinality (the set's
iteration order is unspecified in Python; every downstream observation is
membership or length, so the representative does not matter).
-/

deriving instance DecidableEq for Except

def chars (s : String) : List Char := s.toList

abbrev CaseSetId := List Char

abbrev CaseList := List (List Char)

/-- Errors raised by the embedded code: `toolError` models the
`mcp` `ToolError` raised by the tool operations, `valueError` the Python
`ValueError` raised by `match_template_and_params`, `indexError` the Python
`IndexError` raised by `extract_top_level_params`. -/
inductive ToolErr where
  | toolError (msg : List Char)
  | valueError (msg : List Char)
  | indexError (msg : List Char)
deriving DecidableEq, Repr

/-- A TTLCache entry: stored case list plus absolute expiration deadline. -/
structure Entry where
  value : CaseList
  expire : Nat
deriving DecidableEq, Repr

abbrev Cache := List (CaseSetId × Entry)

/-- Embeds server.py line 21: `case_cache = TTLCache(maxsize=1000, ttl=3600)`. -/
def ttl : Nat := 3600

def lookup : Cache → CaseSetId → Option Entry
  | [], _ => none
  | (k, e) :: rest, id => if k = id then some e else lookup rest id

/-- Store `cache[id] = v`: insert or overwrite, resetting the deadline to
`now + ttl` (TTLCache `__setitem__`). -/
def setEntry : Cache → Nat → CaseSetId → CaseList → Cache
  | [], now, id, v => [(id, { value := v, expire := now + ttl })]
  | (k, e) :: rest, now, id, v =>
      if k = id then (k, { value := v, expire := now + ttl }) :: rest
      else (k, e) :: setEntry rest now id v

/-- Read `id in cache` / `cache[id]` at time `now`: expired entries appear
missing (TTLCache semantics). -/
def getVal (c : Cache) (now : Nat) (id : CaseSetId) : Option CaseList :=
  match lookup c id with
  | some e => if now < e.expire then some e.value else none
  | none => none

/-- The read-refresh idiom `case_cache[id] = case_cache[id]` used at every
read site of server.py: re-store the value, extending the deadline. -/
def refresh (c : Cache) (now : Nat) (id : CaseSetId) : Cache :=
  match getVal c now id with
  | some v => setEntry c now id v
  | none => c

/-- Embeds _utils.py lines 8-16 (`TOOL_CACHE_ID_TEMPLATES`), in dict insertion
order. -/
def TOOL_CACHE_ID_TEMPLATES : List (List Char × List Char) :=
  [ (chars "compute_case_intersection",
     chars "Cases-Intersect-(\x7bcase_set_id_A\x7d)-(\x7bcase_set_id_B\x7d)"),
    (chars "compute_case_union",
     chars "Cases-Union-(\x7bcase_set_id_A\x7d)-(\x7bcase_set_id_B\x7d)"),
    (chars "get_simple_somatic_mutation_occurrences",
     chars "Cases-SSM-(\x7bgene\x7d)-(\x7baa_change\x7d)"),
    (chars "get_copy_number_variant_occurrences",
     chars "Cases-CNV-(\x7bgene\x7d)-(\x7bcnv_change\x7d)"),
    (chars "get_microsatellite_instability_occurrences",
     chars "Cases-MSI-(\x7bmsi_status\x7d)"),
    (chars "get_cases_by_project",
     chars "Cases-Project-(\x7bproject\x7d)"),
    (chars "get_cases_by_cohort_description",
     chars "Cases-Cohort-(\x7bcohort_description\x7d)") ]

/-- Computes `template.split("-(")[0]`: the text before the first occurrence of the
two-character separator `-(`. -/
def headBeforeParen : List Char → List Char
  | [] => []
  | '-' :: '(' :: _ => []
  | c :: rest => c :: headBeforeParen rest

/-- Computes `identifier.startswith(pat)`. -/
def listStartsWith : List Char → List Char → Bool
  | _, [] => true
  | [], _ :: _ => false
  | c :: s, p :: ps => if c = p then listStartsWith s ps else false

/-- Computes `identifier[a+1 : b]`, the slice emitted for a matched paren pair. -/
def sliceBetween (orig : List Char) (a b : Nat) : List Char :=
  (orig.drop (a + 1)).take (b - (a + 1))

/-- The loop of `extract_top_level_params` (_utils.py lines 52-69): `i` is
the index of the next character of `rest` within `orig`, `stack` the pushed
indices of unmatched opening parens, `params` the segments emitted so far. -/
def extractGo (orig : List Char) (i : Nat) (stack : List Nat)
    (params : List (List Char)) :
    List Char → Except ToolErr (List (List Char))
  | [] =>
      match stack with
      | [] => .ok params
      | j :: _ =>
          .error (.indexError (chars "No matching opening parens at: " ++ chars (toString j)))
  | c :: rest =>
      if c = '(' then extractGo orig (i + 1) (i :: stack) params rest
      else if c = ')' then
        match stack with
        | [] => .error (.indexError (chars "No matching closing parens at: " ++ chars (toString i)))
        | opening :: stack' =>
            match stack' with
            | [] => extractGo orig (i + 1) []
                (params ++ [sliceBetween orig opening i]) rest
            | _ :: _ => extractGo orig (i + 1) stack' params rest
      else extractGo orig (i + 1) stack params rest

/-- Embeds _utils.py lines 52-69. -/
def extract_top_level_params (identifier : List Char) :
    Except ToolErr (List (List Char)) :=
  extractGo identifier 0 [] [] identifier

def isBrace (c : Char) : Bool := c = '\x7b' || c = '\x7d'

/-- Computes `n.strip("\x7b\x7d")`: drop leading and trailing brace characters. -/
def stripBraces (s : List Char) : List Char :=
  ((s.dropWhile isBrace).reverse.dropWhile isBrace).reverse

/-- Computes `", ".join(items)`. -/
def joinCommaSpace : List (List Char) → List Char
  | [] => []
  | [x] => x
  | x :: y :: rest => x ++ chars ", " ++ joinCommaSpace (y :: rest)

/-- Embeds _utils.py lines 35-49.  Returns `none` when no template's head
matches; raises `ValueError` when the segment counts differ.  The Python
dict of decoded parameters is modelled as the association list
`zip names params` after brace-stripping the names. -/
def match_template_and_params (identifier : List Char)
    (templates : List (List Char × List Char)) :
    Except ToolErr (Option (List Char × List (List Char × List Char))) :=
  match templates with
  | [] => .ok none
  | (func_name, template) :: rest =>
      if listStartsWith identifier (headBeforeParen template) then
        match extract_top_level_params identifier with
        | .error e => .error e
        | .ok params =>
            match extract_top_level_params template with
            | .error e => .error e
            | .ok names =>
                if params.length ≠ names.length then
                  .error (.valueError
                    (chars "Number of parameters (" ++ chars (toString names.length) ++
                     chars ") in matched template (" ++ template ++
                     chars ") does not match the number of parameters (" ++
                     chars (toString params.length) ++
                     chars ") in the identifier (" ++ identifier ++ chars ")"))
                else
                  .ok (some (func_name,
                    (names.zip params).map (fun np => (stripBraces np.1, np.2))))
      else match_template_and_params identifier rest

/-- The no-match diagnostic of `suggest_tool_from_case_set_id`
(_utils.py lines 29-32). -/
def unknownPatternMsg (case_set_id : CaseSetId) : List Char :=
  chars "The provided case_set_id=" ++ case_set_id ++
  chars " did not match any known patterns returned by our tools. " ++
  chars "Are you sure the tools in this MCP server were used to query for cases?"

/-- Embeds _utils.py lines 19-32.  Errors escaping from
`match_template_and_params` propagate. -/
def suggest_tool_from_case_set_id (case_set_id : CaseSetId) :
    Except ToolErr (List Char) :=
  match match_template_and_params case_set_id TOOL_CACHE_ID_TEMPLATES with
  | .error e => .error e
  | .ok (some (tool_name, tool_params)) =>
      .ok (chars "Based on the provided case_set_id=" ++ case_set_id ++
        chars ", it looks like you need to use the following tool with these args: " ++
        tool_name ++ chars "(" ++
        joinCommaSpace (tool_params.map (fun kv => kv.1 ++ chars "=" ++ kv.2)) ++
        chars ")")
  | .ok none => .ok (unknownPatternMsg case_set_id)

/-- The `ToolError` text of server.py lines 370-374 around a suggestion. -/
def unresolvedMsgWith (case_set_id s : List Char) : List Char :=
  chars "Case set " ++ case_set_id ++
  chars " was not found in the server side cache, perhaps it expired? " ++
  chars "Try requerying for those cases to cache it again. " ++ s

/-- The `ToolError` of server.py lines 370-374 (with the suggestion
interpolated); an exception raised while building the suggestion
propagates instead, as in the Python f-string. -/
def unresolvedError (case_set_id : CaseSetId) : ToolErr :=
  match suggest_tool_from_case_set_id case_set_id with
  | .ok s => .toolError (unresolvedMsgWith case_set_id s)
  | .error e => e

/-- Embeds server.py lines 38-40: `cache_id = f"Cases-SSM-{gene}"` and, only when
`aa_change` is given, `cache_id = f"{cache_id}-{aa_change}"`. -/
def get_ssm_cache_id (gene : List Char) (aa_change : Option (List Char)) : CaseSetId :=
  let cache_id := chars "Cases-SSM-" ++ gene
  match aa_change with
  | none => cache_id
  | some aa => cache_id ++ chars "-" ++ aa

/-- Embeds server.py lines 103-105: same shape for CNV.  (The remap of
`heterozygous deletion` to `loss` happens after the id is computed and only
affects the upstream filter, which is abstracted here.) -/
def get_cnv_cache_id (gene : List Char) (cnv_change : Option (List Char)) : CaseSetId :=
  let cache_id := chars "Cases-CNV-" ++ gene
  match cnv_change with
  | none => cache_id
  | some cnv => cache_id ++ chars "-" ++ cnv

def get_msi_cache_id (msi_status : List Char) : CaseSetId :=
  chars "Cases-MSI-" ++ msi_status

def get_project_cache_id (project : List Char) : CaseSetId :=
  chars "Cases-Project-" ++ project

def get_cohort_cache_id (cohort_description : List Char) : CaseSetId :=
  chars "Cases-Cohort-" ++ cohort_description

/-- Embeds server.py line 295: `f"Cases-Intersect-({A})-AND-({B})"`. -/
def get_intersect_cache_id (A B : CaseSetId) : CaseSetId :=
  chars "Cases-Intersect-(" ++ A ++ chars ")-AND-(" ++ B ++ chars ")"

/-- Embeds server.py line 333: `f"Cases-Union-({A})-AND-({B})"`. -/
def get_union_cache_id (A B : CaseSetId) : CaseSetId :=
  chars "Cases-Union-(" ++ A ++ chars ")-AND-(" ++ B ++ chars ")"

/-- The caching skeleton shared verbatim by all five primitive-query tools
of server.py: on a hit, refresh the entry and return the id with no
upstream query; on a miss, run the upstream queries (abstracted by
`fetched`, the raw list of case ids they yield, and `nq`, the number of
`gdc_query_all` calls made), store `list(set(fetched))` and return the id.
The returned `Nat` counts the upstream queries the call performed. -/
def cachedFetch (c : Cache) (now : Nat) (cache_id : CaseSetId)
    (fetched : CaseList) (nq : Nat) : CaseSetId × Cache × Nat :=
  match getVal c now cache_id with
  | some _ => (cache_id, refresh c now cache_id, 0)
  | none => (cache_id, setEntry c now cache_id fetched.dedup, nq)

/-- Embeds server.py lines 24-86; the miss path issues two `gdc_query_all` calls
(`ssms` then `ssm_occurrences`), abstracted by `fetched`. -/
def get_simple_somatic_mutation_occurrences (fetched : CaseList) (c : Cache)
    (now : Nat) (gene : List Char) (aa_change : Option (List Char)) :
    CaseSetId × Cache × Nat :=
  cachedFetch c now (get_ssm_cache_id gene aa_change) fetched 2

/-- Embeds server.py lines 89-155; one `gdc_query_all` call on a miss. -/
def get_copy_number_variant_occurrences (fetched : CaseList) (c : Cache)
    (now : Nat) (gene : List Char) (cnv_change : Option (List Char)) :
    CaseSetId × Cache × Nat :=
  cachedFetch c now (get_cnv_cache_id gene cnv_change) fetched 1

/-- Embeds server.py lines 158-202; one `gdc_query_all` call on a miss. -/
def get_microsatellite_instability_occurrences (fetched : CaseList) (c : Cache)
    (now : Nat) (msi_status : List Char := chars "msi") :
    CaseSetId × Cache × Nat :=
  cachedFetch c now (get_msi_cache_id msi_status) fetched 1

/-- Embeds server.py lines 205-236; one `gdc_query_all` call on a miss. -/
def get_cases_by_project (fetched : CaseList) (c : Cache) (now : Nat)
    (project : List Char) : CaseSetId × Cache × Nat :=
  cachedFetch c now (get_project_cache_id project) fetched 1

/-- Embeds server.py lines 243-277; `generate_filter` is opaque and only shapes
the upstream query, abstracted by `fetched`; one `gdc_query_all` call. -/
def get_cases_by_cohort_description (fetched : CaseList) (c : Cache) (now : Nat)
    (cohort_description : List Char) : CaseSetId × Cache × Nat :=
  cachedFetch c now (get_cohort_cache_id cohort_description) fetched 1

/-- Embeds server.py lines 282-317.  On the derived-id hit the entry is refreshed
and returned; otherwise the operands are checked in order A then B, each
refreshed when present, the first absent one raising the `ToolError`
(whose suggestion may itself raise, as in the Python f-string); on success
`list(set(A) & set(B))` is stored (modelled by a dedup-filter with the same
membership and cardinality). -/
def compute_case_intersection (c : Cache) (now : Nat)
    (case_set_id_A case_set_id_B : CaseSetId) :
    Except ToolErr CaseSetId × Cache :=
  match getVal c now (get_intersect_cache_id case_set_id_A case_set_id_B) with
  | some _ => (.ok (get_intersect_cache_id case_set_id_A case_set_id_B),
      refresh c now (get_intersect_cache_id case_set_id_A case_set_id_B))
  | none =>
      match getVal c now case_set_id_A with
      | none => (.error (unresolvedError case_set_id_A), c)
      | some vA =>
          match getVal (setEntry c now case_set_id_A vA) now case_set_id_B with
          | none => (.error (unresolvedError case_set_id_B),
              setEntry c now case_set_id_A vA)
          | some vB =>
              (.ok (get_intersect_cache_id case_set_id_A case_set_id_B),
               setEntry (setEntry (setEntry c now case_set_id_A vA) now case_set_id_B vB)
                 now (get_intersect_cache_id case_set_id_A case_set_id_B)
                 (vA.dedup.filter (fun x => x ∈ vB)))

/-- Embeds server.py lines 320-355, identical to intersection except for the id
and `list(set(A) | set(B))` (modelled by `(A ++ B).dedup`, same membership
and cardinality). -/
def compute_case_union (c : Cache) (now : Nat)
    (case_set_id_A case_set_id_B : CaseSetId) :
    Except ToolErr CaseSetId × Cache :=
  match getVal c now (get_union_cache_id case_set_id_A case_set_id_B) with
  | some _ => (.ok (get_union_cache_id case_set_id_A case_set_id_B),
      refresh c now (get_union_cache_id case_set_id_A case_set_id_B))
  | none =>
      match getVal c now case_set_id_A with
      | none => (.error (unresolvedError case_set_id_A), c)
      | some vA =>
          match getVal (setEntry c now case_set_id_A vA) now case_set_id_B with
          | none => (.error (unresolvedError case_set_id_B),
              setEntry c now case_set_id_A vA)
          | some vB =>
              (.ok (get_union_cache_id case_set_id_A case_set_id_B),
               setEntry (setEntry (setEntry c now case_set_id_A vA) now case_set_id_B vB)
                 now (get_union_cache_id case_set_id_A case_set_id_B) (vA ++ vB).dedup)

/-- Embeds server.py lines 358-379: raise when absent, else refresh and return the
length of the stored list. -/
def get_case_set_size (c : Cache) (now : Nat) (case_set_id : CaseSetId) :
    Except ToolErr Nat × Cache :=
  match getVal c now case_set_id with
  | none => (.error (unresolvedError case_set_id), c)
  | some v => (.ok v.length, setEntry c now case_set_id v)

/-- The pagination loop of `gdc_query_all` (_utils.py lines 72-114).  The
upstream `POST` is abstracted by `resp`, mapping the request offset
(`from`) to the page's `hits` (projected to the queried field) and the
response's `pagination.total`; `fields` only shapes the request payload
and `warnings` only produce stderr output, so neither is modelled.  The
Python `while True` loop is given explicit `fuel` (it diverges when the
reported totals keep exceeding the growing offset, in which case the model
returns `none`); the consulted offsets are accumulated in `offs` to make
the issued requests observable. -/
def gdcQueryAllGo (resp : Nat → CaseList × Nat) (page_size : Nat) :
    Nat → Nat → List Nat → CaseList → Option (List Nat × CaseList)
  | 0, _, _, _ => none
  | fuel + 1, offset, offs, all_hits =>
      let r := resp offset
      let offs' := offs ++ [offset]
      let all_hits' := all_hits ++ r.1
      if r.2 ≤ offset + page_size then some (offs', all_hits')
      else gdcQueryAllGo resp page_size fuel (offset + page_size) offs' all_hits'

/-- Embeds _utils.py lines 72-114, started like the Python loop at `offset = 0`
with empty accumulators and the default `page_size=1000`. -/
def gdc_query_all (resp : Nat → CaseList × Nat) (fuel : Nat)
    (page_size : Nat := 1000) : Option (List Nat × CaseList) :=
  gdcQueryAllGo resp page_size fuel 0 [] []

/-- The number of pages the loop issues for a fixed reported `total`:
the least `m ≥ 1` with `m * page_size ≥ total`. -/
def numPages (total page_size : Nat) : Nat :=
  max 1 ((total + page_size - 1) / page_size)

theorem lookup_setEntry_self (c : Cache) (now : Nat) (k : CaseSetId) (v : CaseList) :
    lookup (setEntry c now k v) k = some { value := v, expire := now + ttl } := by
  induction c with
  | nil => simp [setEntry, lookup]
  | cons hd tl ih =>
      by_cases h : hd.1 = k <;> simp [setEntry, lookup, h, ih]

theorem lookup_setEntry_ne (c : Cache) (now : Nat) (k k' : CaseSetId) (v : CaseList)
    (h : k' ≠ k) : lookup (setEntry c now k v) k' = lookup c k' := by
  have h' : ¬ k = k' := fun hh => h hh.symm
  induction c with
  | nil => simp [setEntry, lookup, h']
  | cons hd tl ih =>
      by_cases hk : hd.1 = k
      · subst hk
        simp [setEntry, lookup, h']
      · by_cases hk' : hd.1 = k' <;> simp [setEntry, lookup, hk, hk', ih, h]

theorem getVal_setEntry_self (c : Cache) (now now2 : Nat) (k : CaseSetId) (v : CaseList) :
    getVal (setEntry c now k v) now2 k =
      if now2 < now + ttl then some v else none := by
  simp [getVal, lookup_setEntry_self]

theorem getVal_setEntry_ne (c : Cache) (now now2 : Nat) (k k' : CaseSetId) (v : CaseList)
    (h : k' ≠ k) : getVal (setEntry c now k v) now2 k' = getVal c now2 k' := by
  simp [getVal, lookup_setEntry_ne c now k k' v h]

theorem getVal_eq_some_iff (c : Cache) (now : Nat) (k : CaseSetId) (v : CaseList) :
    getVal c now k = some v ↔ ∃ e, lookup c k = some e ∧ e.value = v ∧ now < e.expire := by
  unfold getVal
  cases h : lookup c k with
  | none => simp
  | some e =>
      by_cases hlt : now < e.expire <;> simp [hlt]

/-- Only the `value` components of a cache matter for set membership; a
refresh (re-storing the looked-up value) never changes them. -/
theorem lookup_map_value_setEntry (c : Cache) (now : Nat) (k k' : CaseSetId)
    (v : CaseList) (hv : getVal c now k = some v) :
    (lookup (setEntry c now k v) k').map Entry.value = (lookup c k').map Entry.value := by
  by_cases h : k' = k
  · subst h
    rcases (getVal_eq_some_iff c now k' v).1 hv with ⟨e, he, hev, _⟩
    simp [lookup_setEntry_self, he, hev]
  · simp [lookup_setEntry_ne c now k k' v h]

/-- The derived intersection id is strictly longer than either operand, so
storing it never collides with an operand key. -/
theorem operand_ne_intersect_id (A B : CaseSetId) :
    A ≠ get_intersect_cache_id A B ∧ B ≠ get_intersect_cache_id A B := by
  constructor <;> intro h <;>
    [have := congrArg List.length h; have := congrArg List.length h] <;>
    simp [get_intersect_cache_id, chars] at this <;> omega

theorem operand_ne_union_id (A B : CaseSetId) :
    A ≠ get_union_cache_id A B ∧ B ≠ get_union_cache_id A B := by
  constructor <;> intro h <;>
    [have := congrArg List.length h; have := congrArg List.length h] <;>
    simp [get_union_cache_id, chars] at this <;> omega

def isValueError {α : Type} : Except ToolErr α → Bool
  | .error (.valueError _) => true
  | _ => false

def isToolError {α : Type} : Except ToolErr α → Bool
  | .error (.toolError _) => true
  | _ => false

/-- If no registered template's head (the text before its first `-(`)
matches, the matcher reports no match. -/
theorem match_none_of_no_head (id : CaseSetId)
    (ts : List (List Char × List Char))
    (h : ∀ t ∈ ts, listStartsWith id (headBeforeParen t.2) = false) :
    match_template_and_params id ts = .ok none := by
  induction ts with
  | nil => rfl
  | cons hd tl ih =>
      unfold match_template_and_params
      rw [h hd (List.mem_cons_self hd tl)]
      simp only [Bool.false_eq_true, if_false]
      exact ih (fun t ht => h t (List.mem_cons_of_mem hd ht))

/-- C1: the primitive SSM/CNV tools do NOT render an absent optional
parameter as an empty `()` segment — the code omits the trailing segment
entirely, and the computed identifiers contain no parentheses at all, so
their segment arity (0) never matches the registered template's declared
arity (2). -/
theorem c1_absent_optional_param_not_rendered_as_empty_segment :
    get_ssm_cache_id (chars "BRAF") none = chars "Cases-SSM-BRAF" ∧
    get_cnv_cache_id (chars "EGFR") none = chars "Cases-CNV-EGFR" ∧
    '(' ∉ get_ssm_cache_id (chars "BRAF") none ∧
    '(' ∉ get_cnv_cache_id (chars "EGFR") none ∧
    extract_top_level_params (get_ssm_cache_id (chars "BRAF") none) = .ok [] ∧
    extract_top_level_params (get_ssm_cache_id (chars "BRAF") (some (chars "V600E"))) =
      .ok [] ∧
    extract_top_level_params (chars "Cases-SSM-(\x7bgene\x7d)-(\x7baa_change\x7d)") =
      .ok [chars "\x7bgene\x7d", chars "\x7baa_change\x7d"] := by decide

/-- C2: decoding the identifier a primitive tool actually constructs
raises `ValueError` (segment count 0 against template arity 2 resp. 1)
instead of recovering the arguments; the round-trip only succeeds for the
intersect/union identifiers. -/
theorem c2_decode_of_encoded_primitive_id_raises :
    isValueError (match_template_and_params
      ((get_simple_somatic_mutation_occurrences [] [] 0 (chars "BRAF")
          (some (chars "V600E"))).1) TOOL_CACHE_ID_TEMPLATES) = true ∧
    isValueError (match_template_and_params
      ((get_cases_by_project [] [] 0 (chars "TCGA-BRCA")).1)
      TOOL_CACHE_ID_TEMPLATES) = true ∧
    isValueError (match_template_and_params
      ((get_microsatellite_instability_occurrences [] [] 0).1)
      TOOL_CACHE_ID_TEMPLATES) = true ∧
    match_template_and_params
      (get_intersect_cache_id (chars "Cases-SSM-BRAF") (chars "Cases-Project-TCGA-BRCA"))
      TOOL_CACHE_ID_TEMPLATES =
      .ok (some (chars "compute_case_intersection",
        [(chars "case_set_id_A", chars "Cases-SSM-BRAF"),
         (chars "case_set_id_B", chars "Cases-Project-TCGA-BRCA")])) := by decide

/-- C3: calling size with a tool-produced identifier that is absent from
the cache raises the `ValueError` escaping from the template arity check
for every primitive tool's identifier, not the `UnresolvedCaseSetError`
naming the originating tool; the intended `ToolError` is produced only for
intersect/union identifiers. -/
theorem c3_size_of_uncached_primitive_id_raises_wrong_error :
    isValueError ((get_case_set_size [] 0
      ((get_simple_somatic_mutation_occurrences [] [] 0 (chars "BRAF") none).1)).1) = true ∧
    (get_case_set_size [] 0
      ((get_simple_somatic_mutation_occurrences [] [] 0 (chars "BRAF") none).1)).2 = [] ∧
    isToolError ((get_case_set_size [] 0
      (get_intersect_cache_id (chars "Cases-SSM-BRAF") (chars "Cases-MSI-msi"))).1) = true := by
  decide

/-- C9: an identifier matching no registered template head yields, from
size, the `ToolError` built around the fixed "did not match any known
patterns" diagnostic, which names no tool; the cache is returned
unchanged. -/
theorem c9_unknown_identifier_diagnostic (c : Cache) (now : Nat) (id : CaseSetId)
    (habsent : getVal c now id = none)
    (hnomatch : ∀ t ∈ TOOL_CACHE_ID_TEMPLATES,
      listStartsWith id (headBeforeParen t.2) = false) :
    get_case_set_size c now id =
      (.error (.toolError (unresolvedMsgWith id (unknownPatternMsg id))), c) := by
  unfold get_case_set_size
  rw [habsent]
  unfold unresolvedError suggest_tool_from_case_set_id
  rw [match_none_of_no_head id TOOL_CACHE_ID_TEMPLATES hnomatch]

theorem c9_unknown_identifier_diagnostic_witness :
    getVal [] 0 (chars "zzz") = none ∧
    get_case_set_size [] 0 (chars "zzz") =
      (.error (.toolError (unresolvedMsgWith (chars "zzz")
        (unknownPatternMsg (chars "zzz")))), []) :=
  ⟨by decide, c9_unknown_identifier_diagnostic [] 0 (chars "zzz") (by decide) (by decide)⟩

theorem cachedFetch_fst (c : Cache) (now : Nat) (id : CaseSetId)
    (fetched : CaseList) (nq : Nat) : (cachedFetch c now id fetched nq).1 = id := by
  unfold cachedFetch
  cases getVal c now id <;> rfl

theorem cachedFetch_hit (c : Cache) (now : Nat) (id : CaseSetId) (fetched : CaseList)
    (nq : Nat) (v : CaseList) (h : getVal c now id = some v) :
    cachedFetch c now id fetched nq = (id, refresh c now id, 0) := by
  unfold cachedFetch
  rw [h]

/-- After any call, the id's entry is present with a fresh deadline. -/
theorem cachedFetch_lookup_self (c : Cache) (now : Nat) (id : CaseSetId)
    (fetched : CaseList) (nq : Nat) :
    ∃ v, lookup (cachedFetch c now id fetched nq).2.1 id =
      some { value := v, expire := now + ttl } := by
  unfold cachedFetch
  cases h : getVal c now id with
  | none => exact ⟨fetched.dedup, lookup_setEntry_self c now id fetched.dedup⟩
  | some v =>
      refine ⟨v, ?_⟩
      unfold refresh
      rw [h]
      exact lookup_setEntry_self c now id v

/-- Calling the caching skeleton again on the same id while the first
call's entry is unexpired is a pure cache hit: same id, a bare refresh,
and zero upstream queries, whatever the upstream would now return. -/
theorem cachedFetch_second_call (c : Cache) (now now2 : Nat) (id : CaseSetId)
    (f f2 : CaseList) (nq nq2 : Nat) (h2 : now2 < now + ttl) :
    cachedFetch (cachedFetch c now id f nq).2.1 now2 id f2 nq2 =
      (id, refresh (cachedFetch c now id f nq).2.1 now2 id, 0) := by
  obtain ⟨v, hv⟩ := cachedFetch_lookup_self c now id f nq
  exact cachedFetch_hit _ now2 id f2 nq2 v (by simp [getVal, hv, h2])

/-- C5: for every primitive-query tool, a second call with identical
arguments while the first call's entry is still cached returns the
identical identifier, performs zero upstream queries, and only refreshes
the cached entry — whatever case list `f2` the upstream would have
returned. -/
theorem c5_second_call_is_pure_cache_hit (f f2 : CaseList) (c : Cache)
    (now now2 : Nat) (gene : List Char) (aa cnv : Option (List Char))
    (msi proj coh : List Char) (h2 : now2 < now + ttl) :
    (get_simple_somatic_mutation_occurrences f2
        (get_simple_somatic_mutation_occurrences f c now gene aa).2.1 now2 gene aa =
      ((get_simple_somatic_mutation_occurrences f c now gene aa).1,
       refresh (get_simple_somatic_mutation_occurrences f c now gene aa).2.1 now2
         (get_simple_somatic_mutation_occurrences f c now gene aa).1, 0)) ∧
    (get_copy_number_variant_occurrences f2
        (get_copy_number_variant_occurrences f c now gene cnv).2.1 now2 gene cnv =
      ((get_copy_number_variant_occurrences f c now gene cnv).1,
       refresh (get_copy_number_variant_occurrences f c now gene cnv).2.1 now2
         (get_copy_number_variant_occurrences f c now gene cnv).1, 0)) ∧
    (get_microsatellite_instability_occurrences f2
        (get_microsatellite_instability_occurrences f c now msi).2.1 now2 msi =
      ((get_microsatellite_instability_occurrences f c now msi).1,
       refresh (get_microsatellite_instability_occurrences f c now msi).2.1 now2
         (get_microsatellite_instability_occurrences f c now msi).1, 0)) ∧
    (get_cases_by_project f2 (get_cases_by_project f c now proj).2.1 now2 proj =
      ((get_cases_by_project f c now proj).1,
       refresh (get_cases_by_project f c now proj).2.1 now2
         (get_cases_by_project f c now proj).1, 0)) ∧
    (get_cases_by_cohort_description f2
        (get_cases_by_cohort_description f c now coh).2.1 now2 coh =
      ((get_cases_by_cohort_description f c now coh).1,
       refresh (get_cases_by_cohort_description f c now coh).2.1 now2
         (get_cases_by_cohort_description f c now coh).1, 0)) := by
  refine ⟨?_, ?_, ?_, ?_, ?_⟩ <;>
    simp only [get_simple_somatic_mutation_occurrences,
      get_copy_number_variant_occurrences,
      get_microsatellite_instability_occurrences, get_cases_by_project,
      get_cases_by_cohort_description, cachedFetch_fst] <;>
    exact cachedFetch_second_call _ now now2 _ f f2 _ _ h2

theorem c5_second_call_is_pure_cache_hit_witness :
    (1 : Nat) < 0 + ttl ∧
    get_cases_by_project [] (get_cases_by_project [chars "u"] [] 0 (chars "TCGA-BRCA")).2.1
        1 (chars "TCGA-BRCA") =
      ((get_cases_by_project [chars "u"] [] 0 (chars "TCGA-BRCA")).1,
       refresh (get_cases_by_project [chars "u"] [] 0 (chars "TCGA-BRCA")).2.1 1
         (get_cases_by_project [chars "u"] [] 0 (chars "TCGA-BRCA")).1, 0) :=
  ⟨by decide,
   (c5_second_call_is_pure_cache_hit [chars "u"] [] [] 0 1 [] none none []
     (chars "TCGA-BRCA") [] (by decide)).2.2.2.1⟩

/-- Entry freshness after the operand-refresh/store sequence of the
set-operation miss path. -/
theorem lookup_after_op (c : Cache) (now : Nat) (A B d : CaseSetId)
    (vA vB w : CaseList) (hBd : B ≠ d) (hAd : A ≠ d) :
    lookup (setEntry (setEntry (setEntry c now A vA) now B vB) now d w) B =
      some { value := vB, expire := now + ttl } ∧
    (A ≠ B → lookup (setEntry (setEntry (setEntry c now A vA) now B vB) now d w) A =
      some { value := vA, expire := now + ttl }) := by
  constructor
  · rw [lookup_setEntry_ne _ now d B w hBd, lookup_setEntry_self]
  · intro hab
    rw [lookup_setEntry_ne _ now d A w hAd,
        lookup_setEntry_ne _ now B A vB hab, lookup_setEntry_self]

theorem now_lt_now_add_ttl (now : Nat) : now < now + ttl := by
  simp [ttl]

/-- C6: every read of a cache entry — the size lookup, the hit that
short-circuits a primitive tool (`cachedFetch`), the hit on a derived
intersect/union id, and the operand reads of the intersect/union miss
path — re-stores the entry with deadline `now + ttl` and the stored value
unchanged, so the entry is retrievable at any later instant before
`now + ttl`. -/
theorem c6_every_read_refreshes_deadline (c : Cache) (now : Nat) :
    (∀ id v, getVal c now id = some v →
      get_case_set_size c now id = (.ok v.length, setEntry c now id v) ∧
      lookup (setEntry c now id v) id = some { value := v, expire := now + ttl } ∧
      ∀ now2, now2 < now + ttl → getVal (setEntry c now id v) now2 id = some v) ∧
    (∀ id v f nq, getVal c now id = some v →
      cachedFetch c now id f nq = (id, setEntry c now id v, 0)) ∧
    (∀ A B v, getVal c now (get_intersect_cache_id A B) = some v →
      compute_case_intersection c now A B =
        (.ok (get_intersect_cache_id A B),
         setEntry c now (get_intersect_cache_id A B) v)) ∧
    (∀ A B v, getVal c now (get_union_cache_id A B) = some v →
      compute_case_union c now A B =
        (.ok (get_union_cache_id A B), setEntry c now (get_union_cache_id A B) v)) ∧
    (∀ A B vA vB, getVal c now (get_intersect_cache_id A B) = none →
      getVal c now A = some vA → getVal c now B = some vB →
      lookup (compute_case_intersection c now A B).2 B =
        some { value := vB, expire := now + ttl } ∧
      (A ≠ B → lookup (compute_case_intersection c now A B).2 A =
        some { value := vA, expire := now + ttl })) ∧
    (∀ A B vA vB, getVal c now (get_union_cache_id A B) = none →
      getVal c now A = some vA → getVal c now B = some vB →
      lookup (compute_case_union c now A B).2 B =
        some { value := vB, expire := now + ttl } ∧
      (A ≠ B → lookup (compute_case_union c now A B).2 A =
        some { value := vA, expire := now + ttl })) := by
  refine ⟨?_, ?_, ?_, ?_, ?_, ?_⟩
  · intro id v h
    unfold get_case_set_size
    rw [h]
    refine ⟨rfl, lookup_setEntry_self c now id v, ?_⟩
    intro now2 h2
    rw [getVal_setEntry_self]
    simp [h2]
  · intro id v f nq h
    rw [cachedFetch_hit c now id f nq v h]
    unfold refresh
    rw [h]
  · intro A B v h
    unfold compute_case_intersection
    rw [h]
    unfold refresh
    rw [h]
  · intro A B v h
    unfold compute_case_union
    rw [h]
    unfold refresh
    rw [h]
  · intro A B vA vB hd hA hB
    have hB' : getVal (setEntry c now A vA) now B = some vB := by
      by_cases hab : B = A
      · subst hab
        have hv : vA = vB := by
          rw [hA] at hB
          exact Option.some.inj hB
        rw [getVal_setEntry_self, if_pos (now_lt_now_add_ttl now), hv]
      · rw [getVal_setEntry_ne c now now A B vA hab]
        exact hB
    unfold compute_case_intersection
    rw [hd, hA]
    dsimp only
    rw [hB']
    exact lookup_after_op c now A B _ vA vB _
      (operand_ne_intersect_id A B).2 (operand_ne_intersect_id A B).1
  · intro A B vA vB hd hA hB
    have hB' : getVal (setEntry c now A vA) now B = some vB := by
      by_cases hab : B = A
      · subst hab
        have hv : vA = vB := by
          rw [hA] at hB
          exact Option.some.inj hB
        rw [getVal_setEntry_self, if_pos (now_lt_now_add_ttl now), hv]
      · rw [getVal_setEntry_ne c now now A B vA hab]
        exact hB
    unfold compute_case_union
    rw [hd, hA]
    dsimp only
    rw [hB']
    exact lookup_after_op c now A B _ vA vB _
      (operand_ne_union_id A B).2 (operand_ne_union_id A B).1

def c6cache : Cache :=
  [(chars "a", { value := [chars "x"], expire := 10 }),
   (chars "b", { value := [chars "y"], expire := 20 })]

theorem c6_every_read_refreshes_deadline_witness :
    getVal c6cache 5 (chars "a") = some [chars "x"] ∧
    getVal c6cache 5 (chars "b") = some [chars "y"] ∧
    getVal c6cache 5 (get_intersect_cache_id (chars "a") (chars "b")) = none ∧
    get_case_set_size c6cache 5 (chars "a") =
      (.ok 1, setEntry c6cache 5 (chars "a") [chars "x"]) ∧
    lookup (compute_case_intersection c6cache 5 (chars "a") (chars "b")).2 (chars "b") =
      some { value := [chars "y"], expire := 5 + ttl } :=
  ⟨by decide, by decide, by decide,
   ((c6_every_read_refreshes_deadline c6cache 5).1 (chars "a") [chars "x"] (by decide)).1,
   ((c6_every_read_refreshes_deadline c6cache 5).2.2.2.2.1 (chars "a") (chars "b")
     [chars "x"] [chars "y"] (by decide) (by decide) (by decide)).1⟩

/-- C10: when size/intersect/union fails because a referenced identifier is
absent, the operation returns an error; the cache comes back either
completely untouched or (when the first operand was present and the second
absent) with only the first operand's deadline refreshed: no entry's
stored value changes, every key other than that operand keeps its exact
entry, and nothing is stored under the would-be derived identifier. -/
theorem c10_resolution_failure_preserves_cache (c : Cache) (now : Nat) :
    (∀ id, getVal c now id = none →
      ∃ e, get_case_set_size c now id = (.error e, c)) ∧
    (∀ A B, getVal c now (get_intersect_cache_id A B) = none →
      getVal c now A = none →
      ∃ e, compute_case_intersection c now A B = (.error e, c)) ∧
    (∀ A B vA, getVal c now (get_intersect_cache_id A B) = none →
      getVal c now A = some vA → getVal c now B = none → B ≠ A →
      ∃ e, compute_case_intersection c now A B = (.error e, setEntry c now A vA) ∧
        (∀ k, (lookup (setEntry c now A vA) k).map Entry.value =
          (lookup c k).map Entry.value) ∧
        (∀ k, k ≠ A → lookup (setEntry c now A vA) k = lookup c k) ∧
        getVal (setEntry c now A vA) now (get_intersect_cache_id A B) = none) ∧
    (∀ A B, getVal c now (get_union_cache_id A B) = none →
      getVal c now A = none →
      ∃ e, compute_case_union c now A B = (.error e, c)) ∧
    (∀ A B vA, getVal c now (get_union_cache_id A B) = none →
      getVal c now A = some vA → getVal c now B = none → B ≠ A →
      ∃ e, compute_case_union c now A B = (.error e, setEntry c now A vA) ∧
        (∀ k, (lookup (setEntry c now A vA) k).map Entry.value =
          (lookup c k).map Entry.value) ∧
        (∀ k, k ≠ A → lookup (setEntry c now A vA) k = lookup c k) ∧
        getVal (setEntry c now A vA) now (get_union_cache_id A B) = none) := by
  refine ⟨?_, ?_, ?_, ?_, ?_⟩
  · intro id h
    refine ⟨unresolvedError id, ?_⟩
    unfold get_case_set_size
    rw [h]
  · intro A B hd hA
    refine ⟨unresolvedError A, ?_⟩
    unfold compute_case_intersection
    rw [hd, hA]
  · intro A B vA hd hA hB hBA
    have hB' : getVal (setEntry c now A vA) now B = none := by
      rw [getVal_setEntry_ne c now now A B vA hBA]
      exact hB
    refine ⟨unresolvedError B, ?_, ?_, ?_, ?_⟩
    · unfold compute_case_intersection
      rw [hd, hA]
      dsimp only
      rw [hB']
    · intro k
      exact lookup_map_value_setEntry c now A k vA hA
    · intro k hk
      exact lookup_setEntry_ne c now A k vA hk
    · rw [getVal_setEntry_ne c now now A (get_intersect_cache_id A B) vA
        (operand_ne_intersect_id A B).1.symm]
      · exact hd
  · intro A B hd hA
    refine ⟨unresolvedError A, ?_⟩
    unfold compute_case_union
    rw [hd, hA]
  · intro A B vA hd hA hB hBA
    have hB' : getVal (setEntry c now A vA) now B = none := by
      rw [getVal_setEntry_ne c now now A B vA hBA]
      exact hB
    refine ⟨unresolvedError B, ?_, ?_, ?_, ?_⟩
    · unfold compute_case_union
      rw [hd, hA]
      dsimp only
      rw [hB']
    · intro k
      exact lookup_map_value_setEntry c now A k vA hA
    · intro k hk
      exact lookup_setEntry_ne c now A k vA hk
    · rw [getVal_setEntry_ne c now now A (get_union_cache_id A B) vA
        (operand_ne_union_id A B).1.symm]
      · exact hd

def c10cache : Cache := [(chars "a", { value := [chars "x"], expire := 10 })]

theorem c10_resolution_failure_preserves_cache_witness :
    getVal c10cache 5 (get_intersect_cache_id (chars "a") (chars "b")) = none ∧
    getVal c10cache 5 (chars "a") = some [chars "x"] ∧
    getVal c10cache 5 (chars "b") = none ∧
    (chars "b" : CaseSetId) ≠ chars "a" ∧
    ∃ e, compute_case_intersection c10cache 5 (chars "a") (chars "b") =
        (.error e, setEntry c10cache 5 (chars "a") [chars "x"]) ∧
      (∀ k, (lookup (setEntry c10cache 5 (chars "a") [chars "x"]) k).map Entry.value =
        (lookup c10cache k).map Entry.value) ∧
      (∀ k, k ≠ chars "a" →
        lookup (setEntry c10cache 5 (chars "a") [chars "x"]) k = lookup c10cache k) ∧
      getVal (setEntry c10cache 5 (chars "a") [chars "x"]) 5
        (get_intersect_cache_id (chars "a") (chars "b")) = none :=
  ⟨by decide, by decide, by decide, by decide,
   (c10_resolution_failure_preserves_cache c10cache 5).2.2.1 (chars "a") (chars "b")
     [chars "x"] (by decide) (by decide) (by decide) (by decide)⟩

/-- The intersection miss path resolved: both operands present, derived id
absent. -/
theorem intersection_miss_result (c : Cache) (now : Nat) (A B : CaseSetId)
    (vA vB : CaseList)
    (hd : getVal c now (get_intersect_cache_id A B) = none)
    (hA : getVal c now A = some vA) (hB : getVal c now B = some vB) :
    compute_case_intersection c now A B =
      (.ok (get_intersect_cache_id A B),
       setEntry (setEntry (setEntry c now A vA) now B vB) now
         (get_intersect_cache_id A B) (vA.dedup.filter (fun x => x ∈ vB))) := by
  have hB' : getVal (setEntry c now A vA) now B = some vB := by
    by_cases hab : B = A
    · subst hab
      have hv : vA = vB := by
        rw [hA] at hB
        exact Option.some.inj hB
      rw [getVal_setEntry_self, if_pos (now_lt_now_add_ttl now), hv]
    · rw [getVal_setEntry_ne c now now A B vA hab]
      exact hB
  unfold compute_case_intersection
  rw [hd, hA]
  dsimp only
  rw [hB']

theorem union_miss_result (c : Cache) (now : Nat) (A B : CaseSetId)
    (vA vB : CaseList)
    (hd : getVal c now (get_union_cache_id A B) = none)
    (hA : getVal c now A = some vA) (hB : getVal c now B = some vB) :
    compute_case_union c now A B =
      (.ok (get_union_cache_id A B),
       setEntry (setEntry (setEntry c now A vA) now B vB) now
         (get_union_cache_id A B) (vA ++ vB).dedup) := by
  have hB' : getVal (setEntry c now A vA) now B = some vB := by
    by_cases hab : B = A
    · subst hab
      have hv : vA = vB := by
        rw [hA] at hB
        exact Option.some.inj hB
      rw [getVal_setEntry_self, if_pos (now_lt_now_add_ttl now), hv]
    · rw [getVal_setEntry_ne c now now A B vA hab]
      exact hB
  unfold compute_case_union
  rw [hd, hA]
  dsimp only
  rw [hB']

def c4cache : Cache :=
  [(chars "a", { value := [chars "x"], expire := 10 }),
   (chars "b", { value := [chars "y"], expire := 20 })]

/-- C4 counterexample: the two operand orders return different identifier
strings (the operands are embedded in call order), so `intersect(A,B)` and
`intersect(B,A)` — the values the tools return — are not equal, and
likewise for union. -/
theorem c4_returned_identifiers_not_commutative :
    (compute_case_intersection c4cache 5 (chars "a") (chars "b")).1 ≠
      (compute_case_intersection c4cache 5 (chars "b") (chars "a")).1 ∧
    (compute_case_union c4cache 5 (chars "a") (chars "b")).1 ≠
      (compute_case_union c4cache 5 (chars "b") (chars "a")).1 := by decide

/-- C4 (amended): the identifiers returned by the two operand orders
differ, but the case sets stored under them are equal as sets (same
membership), and the size laws hold as stated:
`size(intersect(A,A)) = size(A)` and `size(union(A,A)) = size(A)`. -/
theorem c4_set_laws_on_stored_sets_and_sizes (c : Cache) (now : Nat)
    (A B : CaseSetId) (vA vB : CaseList)
    (hA : getVal c now A = some vA) (hB : getVal c now B = some vB)
    (hnd : vA.Nodup)
    (hiAB : getVal c now (get_intersect_cache_id A B) = none)
    (hiBA : getVal c now (get_intersect_cache_id B A) = none)
    (hiAA : getVal c now (get_intersect_cache_id A A) = none)
    (huAB : getVal c now (get_union_cache_id A B) = none)
    (huBA : getVal c now (get_union_cache_id B A) = none)
    (huAA : getVal c now (get_union_cache_id A A) = none) :
    (∃ v1 v2,
      getVal (compute_case_intersection c now A B).2 now
        (get_intersect_cache_id A B) = some v1 ∧
      getVal (compute_case_intersection c now B A).2 now
        (get_intersect_cache_id B A) = some v2 ∧
      ∀ x, x ∈ v1 ↔ x ∈ v2) ∧
    (∃ v1 v2,
      getVal (compute_case_union c now A B).2 now
        (get_union_cache_id A B) = some v1 ∧
      getVal (compute_case_union c now B A).2 now
        (get_union_cache_id B A) = some v2 ∧
      ∀ x, x ∈ v1 ↔ x ∈ v2) ∧
    (compute_case_intersection c now A A).1 = .ok (get_intersect_cache_id A A) ∧
    (get_case_set_size (compute_case_intersection c now A A).2 now
        (get_intersect_cache_id A A)).1 = (get_case_set_size c now A).1 ∧
    (compute_case_union c now A A).1 = .ok (get_union_cache_id A A) ∧
    (get_case_set_size (compute_case_union c now A A).2 now
        (get_union_cache_id A A)).1 = (get_case_set_size c now A).1 := by
  have rIAB := intersection_miss_result c now A B vA vB hiAB hA hB
  have rIBA := intersection_miss_result c now B A vB vA hiBA hB hA
  have rIAA := intersection_miss_result c now A A vA vA hiAA hA hA
  have rUAB := union_miss_result c now A B vA vB huAB hA hB
  have rUBA := union_miss_result c now B A vB vA huBA hB hA
  have rUAA := union_miss_result c now A A vA vA huAA hA hA
  refine ⟨?_, ?_, ?_, ?_, ?_, ?_⟩
  · refine ⟨vA.dedup.filter (fun x => x ∈ vB), vB.dedup.filter (fun x => x ∈ vA),
      ?_, ?_, ?_⟩
    · rw [rIAB]
      dsimp only
      rw [getVal_setEntry_self, if_pos (now_lt_now_add_ttl now)]
    · rw [rIBA]
      dsimp only
      rw [getVal_setEntry_self, if_pos (now_lt_now_add_ttl now)]
    · intro x
      simp [List.mem_filter, List.mem_dedup, and_comm]
  · refine ⟨(vA ++ vB).dedup, (vB ++ vA).dedup, ?_, ?_, ?_⟩
    · rw [rUAB]
      dsimp only
      rw [getVal_setEntry_self, if_pos (now_lt_now_add_ttl now)]
    · rw [rUBA]
      dsimp only
      rw [getVal_setEntry_self, if_pos (now_lt_now_add_ttl now)]
    · intro x
      simp [List.mem_dedup, List.mem_append, or_comm]
  · rw [rIAA]
  · rw [rIAA]
    have hw : (vA.dedup.filter (fun x => x ∈ vA)).length = vA.length := by
      rw [hnd.dedup, List.filter_eq_self.mpr (fun a ha => by simpa using ha)]
    unfold get_case_set_size
    rw [getVal_setEntry_self, if_pos (now_lt_now_add_ttl now), hA]
    dsimp only
    rw [hw]
  · rw [rUAA]
  · rw [rUAA]
    have hw : ((vA ++ vA).dedup).length = vA.length :=
      ((List.perm_ext_iff_of_nodup (List.nodup_dedup _) hnd).2
        (fun x => by simp [List.mem_dedup])).length_eq
    unfold get_case_set_size
    rw [getVal_setEntry_self, if_pos (now_lt_now_add_ttl now), hA]
    dsimp only
    rw [hw]

theorem c4_set_laws_on_stored_sets_and_sizes_witness :
    getVal c4cache 5 (chars "a") = some [chars "x"] ∧
    (get_case_set_size (compute_case_intersection c4cache 5 (chars "a") (chars "a")).2 5
        (get_intersect_cache_id (chars "a") (chars "a"))).1 =
      (get_case_set_size c4cache 5 (chars "a")).1 ∧
    (get_case_set_size (compute_case_union c4cache 5 (chars "a") (chars "a")).2 5
        (get_union_cache_id (chars "a") (chars "a"))).1 =
      (get_case_set_size c4cache 5 (chars "a")).1 :=
  ⟨by decide,
   (c4_set_laws_on_stored_sets_and_sizes c4cache 5 (chars "a") (chars "b")
     [chars "x"] [chars "y"] (by decide) (by decide) (by decide) (by decide)
     (by decide) (by decide) (by decide) (by decide) (by decide)).2.2.2.1,
   (c4_set_laws_on_stored_sets_and_sizes c4cache 5 (chars "a") (chars "b")
     [chars "x"] [chars "y"] (by decide) (by decide) (by decide) (by decide)
     (by decide) (by decide) (by decide) (by decide) (by decide)).2.2.2.2.2⟩

/-- For a fixed reported total and positive page size, reaching at least
`m ≥ 1` pages is exactly covering the total. -/
theorem numPages_le_iff (total ps m : Nat) (hps : 0 < ps) (hm : 1 ≤ m) :
    numPages total ps ≤ m ↔ total ≤ m * ps := by
  unfold numPages
  rw [max_le_iff, Nat.div_le_iff_le_mul_add_pred hps, Nat.mul_comm ps m]
  generalize m * ps = q
  omega

theorem one_le_numPages (total ps : Nat) : 1 ≤ numPages total ps :=
  le_max_left 1 _

/-- Run of the pagination loop from page `j` when the upstream reports a
fixed `total`: it consults exactly the offsets `j*ps, (j+1)*ps, ...` up to
page `numPages total ps - 1` and appends each page's hits in order. -/
theorem gdcQueryAllGo_spec (resp : Nat → CaseList × Nat) (ps total : Nat)
    (hps : 0 < ps) (ht : ∀ o, (resp o).2 = total) :
    ∀ fuel j offs acc, numPages total ps ≤ fuel + j → j < numPages total ps →
      gdcQueryAllGo resp ps fuel (j * ps) offs acc =
        some (offs ++ (List.range' j (numPages total ps - j)).map (fun i => i * ps),
              acc ++ ((List.range' j (numPages total ps - j)).map
                (fun i => (resp (i * ps)).1)).flatten) := by
  intro fuel
  induction fuel with
  | zero => intro j offs acc h1 h2; omega
  | succ n ih =>
      intro j offs acc h1 h2
      rw [gdcQueryAllGo]
      rw [ht (j * ps)]
      by_cases hstop : total ≤ j * ps + ps
      · rw [if_pos hstop]
        have hnp : numPages total ps = j + 1 := by
          have hle : numPages total ps ≤ j + 1 := by
            rw [numPages_le_iff total ps (j + 1) hps (by omega), Nat.succ_mul]
            exact hstop
          omega
        rw [hnp]
        have h1j : j + 1 - j = 1 := by omega
        rw [h1j, List.range'_one]
        simp
      · rw [if_neg hstop]
        have hmul : j * ps + ps = (j + 1) * ps := (Nat.succ_mul j ps).symm
        rw [hmul]
        have hlt : j + 1 < numPages total ps := by
          by_contra hcon
          have : numPages total ps ≤ j + 1 := by omega
          rw [numPages_le_iff total ps (j + 1) hps (by omega), Nat.succ_mul] at this
          exact hstop this
        rw [ih (j + 1) (offs ++ [j * ps]) (acc ++ (resp (j * ps)).1) (by omega) hlt]
        have hsplit : List.range' j (numPages total ps - j) =
            j :: List.range' (j + 1) (numPages total ps - (j + 1)) := by
          have hn : numPages total ps - j = (numPages total ps - (j + 1)) + 1 := by
            omega
          rw [hn, List.range'_succ]
        rw [hsplit]
        simp

/-- C8: with a fixed server-reported `total`, positive page size and
enough fuel, the pagination loop issues requests at offsets
`0, ps, 2*ps, ...` and returns the concatenation of every page's hits in
page order; the page count is the least `m ≥ 1` with `m*ps ≥ total`, so at
least one request is issued even when `total = 0`. -/
theorem c8_gdc_query_all_pagination (resp : Nat → CaseList × Nat)
    (ps total fuel : Nat) (hps : 0 < ps) (ht : ∀ o, (resp o).2 = total)
    (hfuel : numPages total ps ≤ fuel) :
    gdc_query_all resp fuel ps =
      some ((List.range (numPages total ps)).map (fun i => i * ps),
            ((List.range (numPages total ps)).map (fun i => (resp (i * ps)).1)).flatten) ∧
    1 ≤ numPages total ps ∧
    (total = 0 → numPages total ps = 1) ∧
    total ≤ numPages total ps * ps ∧
    (∀ m, 0 < m → m < numPages total ps → m * ps < total) := by
  refine ⟨?_, one_le_numPages total ps, ?_, ?_, ?_⟩
  · have h0 : (0 : Nat) * ps = 0 := by omega
    have := gdcQueryAllGo_spec resp ps total hps ht fuel 0 [] []
      (by omega) (lt_of_lt_of_le Nat.zero_lt_one (one_le_numPages total ps))
    rw [h0] at this
    unfold gdc_query_all
    rw [this]
    simp [List.range_eq_range']
  · intro h0
    subst h0
    unfold numPages
    rw [Nat.div_eq_of_lt (by omega)]
    simp
  · rw [← numPages_le_iff total ps (numPages total ps) hps (one_le_numPages total ps)]
  · intro m hm hlt
    by_contra hcon
    have : numPages total ps ≤ m := by
      rw [numPages_le_iff total ps m hps hm]
      omega
    omega

/-- A concrete upstream with total 5 and pages of one hit each. -/
def c8resp (o : Nat) : CaseList × Nat := ([[Char.ofNat (65 + o)]], 5)

theorem c8_gdc_query_all_pagination_witness :
    (0 : Nat) < 2 ∧ (∀ o, (c8resp o).2 = 5) ∧ numPages 5 2 ≤ 10 ∧
    gdc_query_all c8resp 10 2 =
      some ([0, 2, 4], [[Char.ofNat 65], [Char.ofNat 67], [Char.ofNat 69]]) := by
  refine ⟨by decide, fun o => rfl, by decide, ?_⟩
  have h := (c8_gdc_query_all_pagination c8resp 2 5 10 (by decide)
    (fun o => rfl) (by decide)).1
  rw [h]
  decide

/-- Spec-side depth automaton over one string: `parenScan d s` runs the
parenthesis-depth counter of §4.2 starting at depth `d`; `none` means a
closing paren was met at depth 0 (a close with an empty stack), otherwise
the final depth is returned (a nonzero final depth means unclosed opens). -/
def parenScan : Nat → List Char → Option Nat
  | d, [] => some d
  | d, c :: s =>
      if c = '(' then parenScan (d + 1) s
      else if c = ')' then
        if d = 0 then none else parenScan (d - 1) s
      else parenScan d s

/-- Spec-side grammar of balanced-parenthesis strings (arbitrary
non-paren characters interleaved). -/
inductive ParenOk : List Char → Prop where
  | nil : ParenOk []
  | other {c : Char} {s : List Char} :
      c ≠ '(' → c ≠ ')' → ParenOk s → ParenOk (c :: s)
  | wrap {a s : List Char} : ParenOk a → ParenOk s →
      ParenOk ('(' :: a ++ ')' :: s)

/-- Spec-side decomposition of a string into its top-level parenthesized
segments, in left-to-right order: a string relates to `l` exactly when it
is non-paren junk interleaved with top-level groups `(aᵢ)` whose (balanced)
bodies, nested parens included, are listed by `l` in order. -/
inductive Segs : List Char → List (List Char) → Prop where
  | nil : Segs [] []
  | other {c : Char} {s : List Char} {l : List (List Char)} :
      c ≠ '(' → c ≠ ')' → Segs s l → Segs (c :: s) l
  | seg {a s : List Char} {l : List (List Char)} :
      ParenOk a → Segs s l → Segs ('(' :: a ++ ')' :: s) (a :: l)

theorem extractGo_nil (orig : List Char) (i : Nat) (stack : List Nat)
    (params : List (List Char)) :
    extractGo orig i stack params [] =
      (match stack with
      | [] => .ok params
      | j :: _ =>
          .error (.indexError (chars "No matching opening parens at: " ++ chars (toString j)))) := rfl

theorem extractGo_cons (orig : List Char) (i : Nat) (stack : List Nat)
    (params : List (List Char)) (c : Char) (rest : List Char) :
    extractGo orig i stack params (c :: rest) =
      (if c = '(' then extractGo orig (i + 1) (i :: stack) params rest
      else if c = ')' then
        match stack with
        | [] => .error (.indexError (chars "No matching closing parens at: " ++ chars (toString i)))
        | opening :: stack' =>
            match stack' with
            | [] => extractGo orig (i + 1) []
                (params ++ [sliceBetween orig opening i]) rest
            | _ :: _ => extractGo orig (i + 1) stack' params rest
      else extractGo orig (i + 1) stack params rest) := rfl

/-- Running the extraction loop over a balanced substring with a nonempty
surrounding stack only advances the index: no segment is emitted and the
stack is restored. -/
theorem extractGo_skip_balanced {a : List Char} (hb : ParenOk a) :
    ∀ (orig : List Char) (i j : Nat) (stack : List Nat)
      (params : List (List Char)) (rest : List Char),
      extractGo orig i (j :: stack) params (a ++ rest) =
        extractGo orig (i + a.length) (j :: stack) params rest := by
  induction hb with
  | nil =>
      intro orig i j stack params rest
      simp
  | @other c s hc1 hc2 _ ih =>
      intro orig i j stack params rest
      have hlen : i + (c :: s).length = i + 1 + s.length := by
        simp only [List.length_cons]
        omega
      simp only [List.cons_append]
      rw [extractGo_cons, if_neg hc1, if_neg hc2, ih, hlen]
  | @wrap a1 s1 _ _ ih1 ih2 =>
      intro orig i j stack params rest
      simp only [List.cons_append, List.append_assoc]
      rw [extractGo_cons, if_pos rfl, ih1]
      rw [extractGo_cons, if_neg (show ¬ ((')' : Char) = '(') by decide),
        if_pos rfl]
      dsimp only
      rw [ih2]
      have hlen : i + ('(' :: (a1 ++ ')' :: s1)).length =
          i + 1 + a1.length + 1 + s1.length := by
        simp only [List.length_cons, List.length_append]
        omega
      rw [hlen]

/-- Soundness of the decomposition: with prefix `done` consumed, an empty
stack and `params` already emitted, running the loop over a suffix that
decomposes as `Segs s l` emits exactly `params ++ l`. -/
theorem extractGo_segs {s : List Char} {l : List (List Char)} (h : Segs s l) :
    ∀ (done : List Char) (params : List (List Char)),
      extractGo (done ++ s) done.length [] params s = .ok (params ++ l) := by
  induction h with
  | nil =>
      intro done params
      rw [extractGo_nil]
      simp
  | @other c s' l' hc1 hc2 _ ih =>
      intro done params
      rw [extractGo_cons, if_neg hc1, if_neg hc2]
      have horig : done ++ c :: s' = (done ++ [c]) ++ s' := by simp
      have hlen : done.length + 1 = (done ++ [c]).length := by simp
      rw [horig, hlen]
      exact ih (done ++ [c]) params
  | @seg a s' l' hb _ ih =>
      intro done params
      simp only [List.cons_append]
      rw [extractGo_cons, if_pos rfl, extractGo_skip_balanced hb]
      rw [extractGo_cons, if_neg (show ¬ ((')' : Char) = '(') by decide),
        if_pos rfl]
      dsimp only
      have hslice : sliceBetween (done ++ ('(' :: (a ++ ')' :: s')))
          done.length (done.length + 1 + a.length) = a := by
        unfold sliceBetween
        have h1 : done.length + 1 + a.length - (done.length + 1) = a.length := by
          omega
        have h2 : done ++ ('(' :: (a ++ ')' :: s')) =
            (done ++ ['(']) ++ (a ++ ')' :: s') := by simp
        rw [h1, h2, List.drop_left' (by simp), List.take_left]
      rw [hslice]
      have horig : done ++ ('(' :: (a ++ ')' :: s')) =
          (done ++ '(' :: (a ++ [')'])) ++ s' := by simp
      have hlen : done.length + 1 + a.length + 1 =
          (done ++ '(' :: (a ++ [')'])).length := by
        simp
        omega
      rw [horig, hlen, ih (done ++ '(' :: (a ++ [')'])) (params ++ [a])]
      simp

/-- Every string admitting a top-level decomposition is extracted to
exactly its segment list. -/
theorem extract_ok_of_segs {s : List Char} {l : List (List Char)}
    (h : Segs s l) : extract_top_level_params s = .ok l := by
  have h2 := extractGo_segs h [] []
  simpa [extract_top_level_params] using h2

theorem parenScan_nil (d : Nat) : parenScan d [] = some d := rfl

theorem parenScan_cons (d : Nat) (c : Char) (s : List Char) :
    parenScan d (c :: s) =
      (if c = '(' then parenScan (d + 1) s
      else if c = ')' then
        if d = 0 then none else parenScan (d - 1) s
      else parenScan d s) := rfl

/-- The runtime stack length tracks the scan depth: whenever the depth
automaton reports an unbalanced input (a close at depth zero, or a
positive final depth), the extraction loop reports an error. -/
theorem extractGo_error_of_scan :
    ∀ (rest orig : List Char) (i : Nat) (stack : List Nat)
      (params : List (List Char)),
      (parenScan stack.length rest = none →
        ∃ e, extractGo orig i stack params rest = .error e) ∧
      (∀ d, parenScan stack.length rest = some (d + 1) →
        ∃ e, extractGo orig i stack params rest = .error e) := by
  intro rest
  induction rest with
  | nil =>
      intro orig i stack params
      constructor
      · intro h
        rw [parenScan_nil] at h
        exact absurd h (by simp)
      · intro d h
        rw [parenScan_nil] at h
        have hlen : stack.length = d + 1 := Option.some.inj h
        match stack, hlen with
        | j :: tl, _ => exact ⟨_, rfl⟩
  | cons c rest' ih =>
      intro orig i stack params
      by_cases hc1 : c = '('
      · subst hc1
        constructor
        · intro h
          rw [parenScan_cons, if_pos rfl] at h
          rw [extractGo_cons, if_pos rfl]
          exact (ih orig (i + 1) (i :: stack) params).1 h
        · intro d h
          rw [parenScan_cons, if_pos rfl] at h
          rw [extractGo_cons, if_pos rfl]
          exact (ih orig (i + 1) (i :: stack) params).2 d h
      · by_cases hc2 : c = ')'
        · subst hc2
          cases stack with
          | nil =>
              constructor
              · intro h
                exact ⟨_, rfl⟩
              · intro d h
                rw [parenScan_cons, if_neg hc1, if_pos rfl] at h
                simp at h
          | cons j tl =>
              have hlen : (j :: tl).length = tl.length + 1 := rfl
              have hscan : parenScan (j :: tl).length (')' :: rest') =
                  parenScan tl.length rest' := by
                rw [parenScan_cons, if_neg hc1, if_pos rfl, hlen,
                  if_neg (by omega), Nat.add_sub_cancel]
              have hstep : ∃ params',
                  extractGo orig i (j :: tl) params (')' :: rest') =
                    extractGo orig (i + 1) tl params' rest' := by
                cases tl with
                | nil =>
                    exact ⟨params ++ [sliceBetween orig j i], by
                      rw [extractGo_cons, if_neg hc1, if_pos rfl]⟩
                | cons j2 tl2 =>
                    exact ⟨params, by
                      rw [extractGo_cons, if_neg hc1, if_pos rfl]⟩
              obtain ⟨params', hp⟩ := hstep
              constructor
              · intro h
                rw [hscan] at h
                rw [hp]
                exact (ih orig (i + 1) tl params').1 h
              · intro d h
                rw [hscan] at h
                rw [hp]
                exact (ih orig (i + 1) tl params').2 d h
        · constructor
          · intro h
            rw [parenScan_cons, if_neg hc1, if_neg hc2] at h
            rw [extractGo_cons, if_neg hc1, if_neg hc2]
            exact (ih orig (i + 1) stack params).1 h
          · intro d h
            rw [parenScan_cons, if_neg hc1, if_neg hc2] at h
            rw [extractGo_cons, if_neg hc1, if_neg hc2]
            exact (ih orig (i + 1) stack params).2 d h

theorem parenScan_shift : ∀ (s : List Char) (d e : Nat),
    parenScan d s = some e → parenScan (d + 1) s = some (e + 1) := by
  intro s
  induction s with
  | nil =>
      intro d e h
      rw [parenScan_nil] at h ⊢
      rw [Option.some.inj h]
  | cons c t ih =>
      intro d e h
      by_cases hc1 : c = '('
      · subst hc1
        rw [parenScan_cons, if_pos rfl] at h ⊢
        exact ih (d + 1) e h
      · by_cases hc2 : c = ')'
        · subst hc2
          rw [parenScan_cons, if_neg hc1, if_pos rfl] at h ⊢
          by_cases hd : d = 0
          · rw [if_pos hd] at h
            exact absurd h (by simp)
          · rw [if_neg hd] at h
            rw [if_neg (by omega)]
            have h2 := ih (d - 1) e h
            have h3 : d - 1 + 1 = d + 1 - 1 := by omega
            rw [h3] at h2
            exact h2
        · rw [parenScan_cons, if_neg hc1, if_neg hc2] at h ⊢
          exact ih d e h

theorem parenScan_append : ∀ (x y : List Char) (d : Nat),
    parenScan d (x ++ y) =
      (match parenScan d x with
      | some e => parenScan e y
      | none => none) := by
  intro x
  induction x with
  | nil =>
      intro y d
      rw [List.nil_append, parenScan_nil]
  | cons c t ih =>
      intro y d
      rw [List.cons_append, parenScan_cons, parenScan_cons]
      by_cases hc1 : c = '('
      · rw [if_pos hc1, if_pos hc1, ih]
      · by_cases hc2 : c = ')'
        · rw [if_neg hc1, if_pos hc2, if_neg hc1, if_pos hc2]
          by_cases hd : d = 0
          · rw [if_pos hd, if_pos hd]
          · rw [if_neg hd, if_neg hd, ih]
        · rw [if_neg hc1, if_neg hc2, if_neg hc1, if_neg hc2, ih]

/-- Dyck decomposition: a string scanned from positive depth down to 0
splits at the close matching the outermost open: a balanced body, the
close, and a remainder scanned from one level less. -/
theorem parenScan_split_aux : ∀ (n : Nat) (s : List Char), s.length ≤ n →
    ∀ d, parenScan (d + 1) s = some 0 →
    ∃ a r, s = a ++ ')' :: r ∧ parenScan 0 a = some 0 ∧ parenScan d r = some 0 := by
  intro n
  induction n with
  | zero =>
      intro s hs d h
      have hnil : s = [] := List.length_eq_zero.mp (by omega)
      subst hnil
      rw [parenScan_nil] at h
      exact absurd h (by simp)
  | succ n ihn =>
      intro s hs d h
      cases s with
      | nil =>
          rw [parenScan_nil] at h
          exact absurd h (by simp)
      | cons c t =>
          have hts : t.length ≤ n := by
            simp only [List.length_cons] at hs
            omega
          by_cases hc1 : c = '('
          · subst hc1
            rw [parenScan_cons, if_pos rfl] at h
            obtain ⟨a1, r1, ht, ha1, hr1⟩ := ihn t hts (d + 1) h
            have hlen1 : r1.length ≤ n := by
              have := congrArg List.length ht
              simp only [List.length_append, List.length_cons] at this
              omega
            obtain ⟨a2, r2, hr, ha2, hr2⟩ := ihn r1 (by omega) d hr1
            refine ⟨'(' :: a1 ++ ')' :: a2, r2, ?_, ?_, hr2⟩
            · rw [ht, hr]
              simp
            · rw [List.cons_append, parenScan_cons, if_pos rfl,
                parenScan_append, parenScan_shift a1 0 0 ha1]
              dsimp only
              rw [parenScan_cons, if_neg (by decide), if_pos rfl,
                if_neg (by omega), Nat.add_sub_cancel]
              exact ha2
          · by_cases hc2 : c = ')'
            · subst hc2
              rw [parenScan_cons, if_neg hc1, if_pos rfl,
                if_neg (by omega), Nat.add_sub_cancel] at h
              exact ⟨[], t, by simp, parenScan_nil 0, h⟩
            · obtain ⟨a, r, ht, ha, hr⟩ := by
                refine ihn t hts d ?_
                rw [parenScan_cons, if_neg hc1, if_neg hc2] at h
                exact h
              refine ⟨c :: a, r, ?_, ?_, hr⟩
              · rw [ht, List.cons_append]
              · rw [parenScan_cons, if_neg hc1, if_neg hc2]
                exact ha

/-- A string accepted by the depth automaton is generated by the
balanced-parenthesis grammar. -/
theorem parenOk_of_scan : ∀ (n : Nat) (s : List Char), s.length ≤ n →
    parenScan 0 s = some 0 → ParenOk s := by
  intro n
  induction n with
  | zero =>
      intro s hs _
      have hnil : s = [] := List.length_eq_zero.mp (by omega)
      subst hnil
      exact ParenOk.nil
  | succ n ihn =>
      intro s hs h
      cases s with
      | nil => exact ParenOk.nil
      | cons c t =>
          have hts : t.length ≤ n := by
            simp only [List.length_cons] at hs
            omega
          by_cases hc1 : c = '('
          · subst hc1
            rw [parenScan_cons, if_pos rfl] at h
            obtain ⟨a, r, ht, ha, hr⟩ := parenScan_split_aux n t hts 0 h
            have hlena : a.length ≤ n := by
              have := congrArg List.length ht
              simp only [List.length_append, List.length_cons] at this
              omega
            have hlenr : r.length ≤ n := by
              have := congrArg List.length ht
              simp only [List.length_append, List.length_cons] at this
              omega
            rw [ht]
            exact ParenOk.wrap (ihn a hlena ha) (ihn r hlenr hr)
          · by_cases hc2 : c = ')'
            · subst hc2
              rw [parenScan_cons, if_neg hc1, if_pos rfl, if_pos rfl] at h
              exact absurd h (by simp)
            · rw [parenScan_cons, if_neg hc1, if_neg hc2] at h
              exact ParenOk.other hc1 hc2 (ihn t hts h)

/-- Every grammar-balanced string has a top-level decomposition. -/
theorem segs_of_parenOk : ∀ {s : List Char}, ParenOk s → ∃ l, Segs s l := by
  intro s h
  induction h with
  | nil => exact ⟨[], Segs.nil⟩
  | other hc1 hc2 _ ih =>
      obtain ⟨l, hl⟩ := ih
      exact ⟨l, Segs.other hc1 hc2 hl⟩
  | wrap hb _ _ ih2 =>
      obtain ⟨l, hl⟩ := ih2
      exact ⟨_ :: l, Segs.seg hb hl⟩

/-- C7: the top-level extractor returns `.ok l` exactly on the strings
that decompose into non-paren junk interleaved with top-level balanced
groups whose bodies (nested parens included) are `l` in left-to-right
order, and errors on every unbalanced string — one whose depth scan hits a
close at depth 0 (`parenScan` = `none`) or ends at positive depth
(unclosed opens); the template matcher additionally raises `ValueError`
when the emitted segment count differs from the matched template's
declared arity. -/
theorem c7_extractor_characterization :
    (∀ s l, Segs s l → extract_top_level_params s = .ok l) ∧
    (∀ s, parenScan 0 s = none → ∃ e, extract_top_level_params s = .error e) ∧
    (∀ s d, parenScan 0 s = some (d + 1) →
      ∃ e, extract_top_level_params s = .error e) ∧
    (∀ s, parenScan 0 s = some 0 →
      ∃ l, Segs s l ∧ extract_top_level_params s = .ok l) ∧
    (∀ id fn tmpl rest ps ns,
      listStartsWith id (headBeforeParen tmpl) = true →
      extract_top_level_params id = .ok ps →
      extract_top_level_params tmpl = .ok ns →
      ps.length ≠ ns.length →
      ∃ m, match_template_and_params id ((fn, tmpl) :: rest) =
        .error (.valueError m)) := by
  refine ⟨?_, ?_, ?_, ?_, ?_⟩
  · intro s l h
    exact extract_ok_of_segs h
  · intro s h
    exact (extractGo_error_of_scan s s 0 [] []).1 h
  · intro s d h
    exact (extractGo_error_of_scan s s 0 [] []).2 d h
  · intro s h
    obtain ⟨l, hl⟩ := segs_of_parenOk (parenOk_of_scan s.length s le_rfl h)
    exact ⟨l, hl, extract_ok_of_segs hl⟩
  · intro id fn tmpl rest ps ns hstart hid htmpl hne
    have heq : match_template_and_params id ((fn, tmpl) :: rest) =
        .error (.valueError
          (chars "Number of parameters (" ++ chars (toString ns.length) ++
           chars ") in matched template (" ++ tmpl ++
           chars ") does not match the number of parameters (" ++
           chars (toString ps.length) ++
           chars ") in the identifier (" ++ id ++ chars ")")) := by
      unfold match_template_and_params
      rw [hstart, if_pos rfl, hid]
      dsimp only
      rw [htmpl]
      dsimp only
      rw [if_pos hne]
    exact ⟨_, heq⟩

theorem c7_extractor_characterization_witness :
    Segs ['-', '(', 'x', ')'] [['x']] ∧
    extract_top_level_params ['-', '(', 'x', ')'] = .ok [['x']] ∧
    parenScan 0 ['a', ')'] = none ∧
    (∃ e, extract_top_level_params ['a', ')'] = .error e) ∧
    parenScan 0 ['(', '('] = some (1 + 1) ∧
    (∃ e, extract_top_level_params ['(', '('] = .error e) ∧
    parenScan 0 ['(', 'x', ')'] = some 0 ∧
    (∃ l, Segs ['(', 'x', ')'] l ∧
      extract_top_level_params ['(', 'x', ')'] = .ok l) ∧
    (∃ m, match_template_and_params (chars "Cases-MSI-x")
      [(chars "get_microsatellite_instability_occurrences",
        chars "Cases-MSI-(\x7bmsi_status\x7d)")] = .error (.valueError m)) := by
  have hseg : Segs ['(', 'x', ')'] [['x']] :=
    Segs.seg (ParenOk.other (by decide) (by decide) ParenOk.nil) Segs.nil
  have hseg2 : Segs ['-', '(', 'x', ')'] [['x']] :=
    Segs.other (by decide) (by decide) hseg
  refine ⟨hseg2, c7_extractor_characterization.1 _ _ hseg2, by decide,
    c7_extractor_characterization.2.1 _ (by decide), by decide,
    c7_extractor_characterization.2.2.1 _ 1 (by decide), by decide,
    c7_extractor_characterization.2.2.2.1 _ (by decide),
    c7_extractor_characterization.2.2.2.2 (chars "Cases-MSI-x") _ _ [] []
      [chars "\x7bmsi_status\x7d"] (by decide) (by decide) (by decide)
      (by decide)⟩
